import Mathlib

/-!
Verification of the ccd2iso conversion core.

The repository converts a CloneCD raw disc image (a stream of 2352-byte
sector records) into an ISO 9660 byte stream by extracting each sector's
2048-byte user-data payload.  This development embeds:

* `clonecd.py`'s ctypes layout (`ccd_sector` and its nested structures) as
  field lists with computed sizes and offsets;
* `__init__.py`'s `convert` loop as a recursive function over the source
  byte list, parametrized over the destination stream object (its state
  type and its `write` method), with a trace of progress-bar updates.

Bytes are modelled as `Nat`; streams as `List Nat`.
-/

set_option maxRecDepth 4096

abbrev Byte := Nat

/-! ## Sector layout model (clonecd.py)

Each ctypes structure is embedded as its ordered list of (field name,
byte size) pairs.  `c_ubyte` has size 1 and alignment 1, so a ctypes
`Structure` over `c_ubyte` arrays has no padding: its size is the sum of
field sizes and a field's offset is the sum of the sizes before it.  A
ctypes `Union`'s size is the maximum of its members' sizes. -/

def DATA_SIZE : Nat := 2048

def ccd_sectheader_header_fields : List (String × Nat) :=
  [("sectaddr_min", 1), ("sectaddr_sec", 1), ("sectaddr_frac", 1), ("mode", 1)]

/-- Size of a ctypes Structure over byte fields: the sum of field sizes. -/
def structSize (fields : List (String × Nat)) : Nat :=
  (fields.map Prod.snd).sum

/-- Offset of a named field inside a ctypes Structure over byte fields. -/
def fieldOffset : List (String × Nat) → String → Nat
  | [], _ => 0
  | (n, sz) :: rest, name => if n = name then 0 else sz + fieldOffset rest name

def ccd_sectheader_fields : List (String × Nat) :=
  [("synchronization", 12), ("header", structSize ccd_sectheader_header_fields)]

def ccd_mode1_fields : List (String × Nat) :=
  [("data", DATA_SIZE), ("edc", 4), ("unused", 8), ("ecc", 276)]

def ccd_mode2_fields : List (String × Nat) :=
  [("sectsubheader", 8), ("data", DATA_SIZE), ("edc", 4), ("ecc", 276)]

/-- Size of a ctypes Union: the maximum of its members' sizes. -/
def unionSize (members : List Nat) : Nat := members.foldr max 0

def ccd_content_size : Nat :=
  unionSize [structSize ccd_mode1_fields, structSize ccd_mode2_fields]

def ccd_sector_fields : List (String × Nat) :=
  [("sectheader", structSize ccd_sectheader_fields), ("content", ccd_content_size)]

/-- `sizeof(ccd_sector)` in the source: the full record size. -/
def sizeof_ccd_sector : Nat := structSize ccd_sector_fields

/-- Byte offset of `sectheader.header.mode` inside a `ccd_sector` buffer. -/
def mode_offset : Nat :=
  fieldOffset ccd_sector_fields "sectheader"
    + fieldOffset ccd_sectheader_fields "header"
    + fieldOffset ccd_sectheader_header_fields "mode"

/-- Byte offset of `content.mode1.data` inside a `ccd_sector` buffer. -/
def mode1_data_offset : Nat :=
  fieldOffset ccd_sector_fields "content" + fieldOffset ccd_mode1_fields "data"

/-- Byte offset of `content.mode2.data` inside a `ccd_sector` buffer. -/
def mode2_data_offset : Nat :=
  fieldOffset ccd_sector_fields "content" + fieldOffset ccd_mode2_fields "data"

/-- `src_sect.sectheader.header.mode`: the byte at the mode field's offset. -/
def sector_mode (buf : List Byte) : Byte := buf.getD mode_offset 0

/-- `src_sect.content.mode1.data`: the 2048-byte window at its offset. -/
def mode1_data (buf : List Byte) : List Byte :=
  (buf.drop mode1_data_offset).take DATA_SIZE

/-- `src_sect.content.mode2.data`: the 2048-byte window at its offset. -/
def mode2_data (buf : List Byte) : List Byte :=
  (buf.drop mode2_data_offset).take DATA_SIZE

/-! ## Conversion engine model (__init__.py, `convert`) -/

/-- Terminal outcomes of the `convert` loop other than success.

`incompleteSector`, `sessionMarker` and `unrecognizedSectorMode` model the
exception classes declared in `__init__.py`, carrying the values
interpolated into their messages.  `bufferTooSmall` models the ctypes
`ValueError` raised by `ccd_sector.from_buffer_copy` when the buffer holds
fewer bytes than `sizeof(ccd_sector)`; it carries the given and required
sizes from the ctypes message. -/
inductive ConvError where
  | incompleteSector (index got expected : Nat)
  | sessionMarker
  | unrecognizedSectorMode (mode index : Nat)
  | bufferTooSmall (got expected : Nat)
  deriving Repr, DecidableEq

/-- Python `==` between an `int` and a `bytes` object: values of distinct,
unrelated types compare unequal under Python's default equality, so the
result is `false` for every pair.  This models the dead comparison
`src_sect.sectheader.header.mode == b'\xe2'` in `convert`, where the left
operand is an `int` (from `c_ubyte`) and the right a `bytes` literal. -/
def pyIntEqBytes (_n : Byte) (_b : List Byte) : Bool := false

/-- Result of a `convert` run: the destination stream object's final
state, the list of counts passed to `context.update` (the progress bar),
and the outcome (`ok` for clean end of stream, or the raised error). -/
structure ConvResult (σ : Type) where
  dst : σ
  trace : List Nat
  outcome : Except ConvError Unit
  deriving Repr

/-- The `while bytes_read := src_file.read(...)` loop of `convert`.

The destination stream is any object with a `write` method: `write` maps
the object's state and the byte list written to the new state and the
count of bytes written that the method returns (which the source binds to
`bytes_written` and never reads).

Per iteration, mirroring the source: read up to `sizeof(ccd_sector)`
bytes; stop with success on an empty read; `from_buffer_copy` raises
`ValueError` on a buffer shorter than `sizeof(ccd_sector)`; the
incomplete-sector guard compares `sizeof(src_sect)` — the size of a
`ccd_sector` instance, a constant 2352 — against `sizeof(ccd_sector)`;
then dispatch on the mode byte. -/
def convertLoop {σ : Type} (write : σ → List Byte → σ × Nat) (progress : Bool)
    (src_file : List Byte) (dst_file : σ) (sect_num : Nat) (trace : List Nat) :
    ConvResult σ :=
  let bytes_read := src_file.take sizeof_ccd_sector
  if bytes_read.isEmpty then
    ⟨dst_file, trace, .ok ()⟩
  else if bytes_read.length < sizeof_ccd_sector then
    ⟨dst_file, trace, .error (.bufferTooSmall bytes_read.length sizeof_ccd_sector)⟩
  else
    let src_sect := bytes_read.take sizeof_ccd_sector
    if sizeof_ccd_sector < sizeof_ccd_sector then
      ⟨dst_file, trace, .error (.incompleteSector sect_num sizeof_ccd_sector sizeof_ccd_sector)⟩
    else if sector_mode src_sect = 1 then
      let written := write dst_file (mode1_data src_sect)
      convertLoop write progress (src_file.drop sizeof_ccd_sector) written.1 (sect_num + 1)
        (if progress then trace ++ [sect_num + 1] else trace)
    else if sector_mode src_sect = 2 then
      let written := write dst_file (mode2_data src_sect)
      convertLoop write progress (src_file.drop sizeof_ccd_sector) written.1 (sect_num + 1)
        (if progress then trace ++ [sect_num + 1] else trace)
    else if pyIntEqBytes (sector_mode src_sect) [0xE2] then
      ⟨dst_file, trace, .error .sessionMarker⟩
    else
      ⟨dst_file, trace, .error (.unrecognizedSectorMode (sector_mode src_sect) sect_num)⟩
termination_by src_file.length
decreasing_by
  all_goals
    have hsz : sizeof_ccd_sector = 2352 := rfl
    have hmin : bytes_read.length = min sizeof_ccd_sector src_file.length :=
      List.length_take _ _
    simp only [List.length_drop]
    omega

/-- `max_value` for the progress bar (line 47 of `__init__.py`): when a
truthy `size` is given, the sector count `int(size / sizeof(ccd_sector))`;
otherwise `progressbar.UnknownLength`, modelled as `none`.  Display-only
configuration; it never feeds back into the conversion. -/
def progress_max_value (size : Option Nat) : Option Nat :=
  match size with
  | some s => if s ≠ 0 then some (s / sizeof_ccd_sector) else none
  | none => none

/-- `convert(src_file, dst_file, progress, size)`: run the loop from
sector index 0 with an empty update trace.  `size` only configures the
progress bar via `progress_max_value`. -/
def convert {σ : Type} (write : σ → List Byte → σ × Nat) (src_file : List Byte)
    (dst_file : σ) (progress : Bool) (size : Option Nat) : ConvResult σ :=
  let _max_value : Option Nat := progress_max_value size
  convertLoop write progress src_file dst_file 0 []

/-- The `write` method of an in-memory byte buffer (`BytesIO` / a binary
file): append the bytes and return how many were written. -/
def bufWrite (s : List Byte) (d : List Byte) : List Byte × Nat := (s ++ d, d.length)

/-! ## Layout constants -/

theorem sizeof_ccd_sector_eq : sizeof_ccd_sector = 2352 := rfl

theorem mode_offset_eq : mode_offset = 15 := rfl

theorem mode1_data_offset_eq : mode1_data_offset = 16 := rfl

theorem mode2_data_offset_eq : mode2_data_offset = 24 := rfl

/-! ## Evaluation lemmas for the loop -/

theorem convertLoop_nil {σ : Type} (w : σ → List Byte → σ × Nat) (p : Bool)
    (d : σ) (n : Nat) (t : List Nat) :
    convertLoop w p [] d n t = ⟨d, t, .ok ()⟩ := by
  rw [convertLoop]
  simp

theorem convertLoop_short {σ : Type} (w : σ → List Byte → σ × Nat) (p : Bool)
    (src : List Byte) (d : σ) (n : Nat) (t : List Nat)
    (h0 : src ≠ []) (h : src.length < sizeof_ccd_sector) :
    convertLoop w p src d n t =
      ⟨d, t, .error (.bufferTooSmall src.length sizeof_ccd_sector)⟩ := by
  rw [convertLoop]
  have htake : src.take sizeof_ccd_sector = src := List.take_of_length_le h.le
  simp [htake, h, h0]

theorem convertLoop_step_mode1 {σ : Type} (w : σ → List Byte → σ × Nat) (p : Bool)
    (s rest : List Byte) (d : σ) (n : Nat) (t : List Nat)
    (hlen : s.length = sizeof_ccd_sector) (hm : sector_mode s = 1) :
    convertLoop w p (s ++ rest) d n t =
      convertLoop w p rest (w d (mode1_data s)).1 (n + 1)
        (if p then t ++ [n + 1] else t) := by
  rw [convertLoop]
  have htake : (s ++ rest).take sizeof_ccd_sector = s := List.take_left' hlen
  have hdrop : (s ++ rest).drop sizeof_ccd_sector = rest := List.drop_left' hlen
  have htake2 : s.take sizeof_ccd_sector = s := List.take_of_length_le hlen.le
  have hs : s ≠ [] := by
    intro hnil
    rw [hnil] at hlen
    simp [sizeof_ccd_sector_eq] at hlen
  simp [htake, hdrop, htake2, hlen, hm, hs]

theorem convertLoop_step_mode2 {σ : Type} (w : σ → List Byte → σ × Nat) (p : Bool)
    (s rest : List Byte) (d : σ) (n : Nat) (t : List Nat)
    (hlen : s.length = sizeof_ccd_sector) (hm : sector_mode s = 2) :
    convertLoop w p (s ++ rest) d n t =
      convertLoop w p rest (w d (mode2_data s)).1 (n + 1)
        (if p then t ++ [n + 1] else t) := by
  rw [convertLoop]
  have htake : (s ++ rest).take sizeof_ccd_sector = s := List.take_left' hlen
  have hdrop : (s ++ rest).drop sizeof_ccd_sector = rest := List.drop_left' hlen
  have htake2 : s.take sizeof_ccd_sector = s := List.take_of_length_le hlen.le
  have hs : s ≠ [] := by
    intro hnil
    rw [hnil] at hlen
    simp [sizeof_ccd_sector_eq] at hlen
  simp [htake, hdrop, htake2, hlen, hm, hs]

theorem convertLoop_step_badmode {σ : Type} (w : σ → List Byte → σ × Nat) (p : Bool)
    (s rest : List Byte) (d : σ) (n : Nat) (t : List Nat)
    (hlen : s.length = sizeof_ccd_sector)
    (hm1 : sector_mode s ≠ 1) (hm2 : sector_mode s ≠ 2) :
    convertLoop w p (s ++ rest) d n t =
      ⟨d, t, .error (.unrecognizedSectorMode (sector_mode s) n)⟩ := by
  rw [convertLoop]
  have htake : (s ++ rest).take sizeof_ccd_sector = s := List.take_left' hlen
  have htake2 : s.take sizeof_ccd_sector = s := List.take_of_length_le hlen.le
  have hs : s ≠ [] := by
    intro hnil
    rw [hnil] at hlen
    simp [sizeof_ccd_sector_eq] at hlen
  simp [htake, htake2, hlen, hm1, hm2, hs, pyIntEqBytes]

/-! ## Well-formed sectors and payloads -/

/-- A well-formed sector: a full 2352-byte record whose mode byte is 1 or 2. -/
def goodSector (s : List Byte) : Prop :=
  s.length = sizeof_ccd_sector ∧ (sector_mode s = 1 ∨ sector_mode s = 2)

instance (s : List Byte) : Decidable (goodSector s) := by
  unfold goodSector
  infer_instance

/-- The data field the loop writes for a sector, selected by its mode. -/
def payload (s : List Byte) : List Byte :=
  if sector_mode s = 1 then mode1_data s else mode2_data s

theorem payload_length_of_good (s : List Byte) (h : goodSector s) :
    (payload s).length = DATA_SIZE := by
  obtain ⟨hlen, hm⟩ := h
  rcases hm with h1 | h2
  · simp only [payload, if_pos h1, mode1_data, List.length_take, List.length_drop,
      hlen, sizeof_ccd_sector_eq, mode1_data_offset_eq, DATA_SIZE]
    omega
  · have hne : sector_mode s ≠ 1 := by rw [h2]; decide
    simp only [payload, if_neg hne, mode2_data, List.length_take, List.length_drop,
      hlen, sizeof_ccd_sector_eq, mode2_data_offset_eq, DATA_SIZE]
    omega

/-! ## The destination and the outcome ignore the progress flag and trace -/

theorem convertLoop_progress_indep {σ : Type} (w : σ → List Byte → σ × Nat) :
    ∀ (len : Nat) (src : List Byte), src.length ≤ len →
      ∀ (d : σ) (n : Nat) (p₁ p₂ : Bool) (t₁ t₂ : List Nat),
        (convertLoop w p₁ src d n t₁).dst = (convertLoop w p₂ src d n t₂).dst ∧
        (convertLoop w p₁ src d n t₁).outcome = (convertLoop w p₂ src d n t₂).outcome := by
  intro len
  induction len with
  | zero =>
      intro src hlen d n p₁ p₂ t₁ t₂
      have hnil : src = [] := List.length_eq_zero.mp (Nat.le_zero.mp hlen)
      subst hnil
      simp [convertLoop_nil]
  | succ len ih =>
      intro src hlen d n p₁ p₂ t₁ t₂
      rcases eq_or_ne src [] with hnil | hne
      · subst hnil
        simp [convertLoop_nil]
      · by_cases hshort : src.length < sizeof_ccd_sector
        · rw [convertLoop_short w p₁ src d n t₁ hne hshort,
            convertLoop_short w p₂ src d n t₂ hne hshort]
          exact ⟨rfl, rfl⟩
        · have h2352 : sizeof_ccd_sector = 2352 := rfl
          have hslen : (src.take sizeof_ccd_sector).length = sizeof_ccd_sector := by
            rw [List.length_take]
            omega
          have hrlen : (src.drop sizeof_ccd_sector).length ≤ len := by
            rw [List.length_drop]
            omega
          have hsplit : src = src.take sizeof_ccd_sector ++ src.drop sizeof_ccd_sector :=
            (List.take_append_drop _ _).symm
          rw [hsplit]
          by_cases h1 : sector_mode (src.take sizeof_ccd_sector) = 1
          · rw [convertLoop_step_mode1 w p₁ _ _ d n t₁ hslen h1,
              convertLoop_step_mode1 w p₂ _ _ d n t₂ hslen h1]
            exact ih _ hrlen _ _ _ _ _ _
          · by_cases h2 : sector_mode (src.take sizeof_ccd_sector) = 2
            · rw [convertLoop_step_mode2 w p₁ _ _ d n t₁ hslen h2,
                convertLoop_step_mode2 w p₂ _ _ d n t₂ hslen h2]
              exact ih _ hrlen _ _ _ _ _ _
            · rw [convertLoop_step_badmode w p₁ _ _ d n t₁ hslen h1 h2,
                convertLoop_step_badmode w p₂ _ _ d n t₂ hslen h1 h2]
              exact ⟨rfl, rfl⟩

/-! ## Processing a prefix of well-formed sectors -/

theorem convertLoop_good_prefix {σ : Type} (w : σ → List Byte → σ × Nat) :
    ∀ (ss : List (List Byte)), (∀ s ∈ ss, goodSector s) →
      ∀ (rest : List Byte) (d : σ) (n : Nat) (t : List Nat),
        convertLoop w false (ss.flatten ++ rest) d n t =
          convertLoop w false rest
            (ss.foldl (fun acc s => (w acc (payload s)).1) d) (n + ss.length) t := by
  intro ss
  induction ss with
  | nil =>
      intro _ rest d n t
      simp
  | cons s ss ih =>
      intro h rest d n t
      obtain ⟨hlen, hmode⟩ := h s (by simp)
      have hrest : ∀ x ∈ ss, goodSector x := fun x hx => h x (by simp [hx])
      have hassoc : (s :: ss).flatten ++ rest = s ++ (ss.flatten ++ rest) := by simp
      rw [hassoc]
      rcases hmode with h1 | h2
      · have hp : payload s = mode1_data s := by simp [payload, h1]
        rw [convertLoop_step_mode1 w false s (ss.flatten ++ rest) d n t hlen h1]
        simp only [Bool.false_eq_true, if_false]
        rw [ih hrest]
        simp [hp, Nat.add_assoc, Nat.add_comm, Nat.add_left_comm]
      · have hne : sector_mode s ≠ 1 := by rw [h2]; decide
        have hp : payload s = mode2_data s := by simp [payload, hne]
        rw [convertLoop_step_mode2 w false s (ss.flatten ++ rest) d n t hlen h2]
        simp only [Bool.false_eq_true, if_false]
        rw [ih hrest]
        simp [hp, Nat.add_assoc, Nat.add_comm, Nat.add_left_comm]

theorem bufWrite_foldl (ss : List (List Byte)) :
    ∀ d : List Byte,
      ss.foldl (fun acc s => (bufWrite acc (payload s)).1) d = d ++ (ss.map payload).flatten := by
  induction ss with
  | nil => intro d; simp
  | cons s ss ih =>
      intro d
      rw [List.foldl_cons, ih]
      simp [bufWrite, List.append_assoc]

theorem payloads_join_length (ss : List (List Byte)) (h : ∀ s ∈ ss, goodSector s) :
    ((ss.map payload).flatten).length = DATA_SIZE * ss.length := by
  induction ss with
  | nil => simp
  | cons s ss ih =>
      have hs := payload_length_of_good s (h s (by simp))
      have hrest := ih (fun x hx => h x (by simp [hx]))
      simp only [List.map_cons, List.flatten_cons, List.length_append, List.length_cons, hs, hrest]
      ring

theorem convert_eq_loop {σ : Type} (w : σ → List Byte → σ × Nat) (src : List Byte)
    (d : σ) (p : Bool) (sz : Option Nat) :
    convert w src d p sz = convertLoop w p src d 0 [] := rfl

/-! ## C1: conversion of well-formed inputs -/

/-- C1: for every input that is the in-order concatenation of N complete
2352-byte sectors whose mode byte is 1 or 2, `convert` succeeds and the
destination holds exactly the concatenation of each sector's mode-selected
2048-byte data field, of total length 2048·N (so 0 bytes for N = 0). -/
theorem convert_wellformed_sectors (ss : List (List Byte))
    (h : ∀ s ∈ ss, goodSector s) (p : Bool) (sz : Option Nat) :
    (convert bufWrite ss.flatten [] p sz).outcome = .ok () ∧
    (convert bufWrite ss.flatten [] p sz).dst = (ss.map payload).flatten ∧
    (convert bufWrite ss.flatten [] p sz).dst.length = 2048 * ss.length := by
  have hrun : convertLoop bufWrite false ss.flatten [] 0 [] =
      ⟨(ss.map payload).flatten, [], .ok ()⟩ := by
    have hA := convertLoop_good_prefix bufWrite ss h [] [] 0 []
    rw [List.append_nil, bufWrite_foldl] at hA
    rw [hA, convertLoop_nil]
    simp
  have hP := convertLoop_progress_indep bufWrite ss.flatten.length ss.flatten le_rfl
    [] 0 p false [] []
  refine ⟨?_, ?_, ?_⟩
  · rw [convert_eq_loop, hP.2, hrun]
  · rw [convert_eq_loop, hP.1, hrun]
  · rw [convert_eq_loop, hP.1, hrun]
    simpa [DATA_SIZE] using payloads_join_length ss h

/-- A well-formed Mode 1 sector: 15 zero header bytes, mode byte 1, and a
zero data field and trailer. -/
def sampleMode1Sector : List Byte := List.replicate 15 0 ++ 1 :: List.replicate 2336 0

theorem sampleMode1Sector_mode : sector_mode sampleMode1Sector = 1 := by
  rw [sector_mode, mode_offset_eq, sampleMode1Sector,
    List.getD_append_right _ _ _ _ (by rw [List.length_replicate])]
  rw [List.length_replicate, Nat.sub_self, List.getD_cons_zero]

theorem sampleMode1Sector_good : goodSector sampleMode1Sector := by
  constructor
  · rw [sampleMode1Sector, List.length_append, List.length_replicate,
      List.length_cons, List.length_replicate, sizeof_ccd_sector_eq]
  · exact Or.inl sampleMode1Sector_mode

theorem convert_wellformed_sectors_witness :
    (∀ s ∈ [sampleMode1Sector], goodSector s) ∧
    ((convert bufWrite ([sampleMode1Sector]).flatten [] false none).outcome = .ok () ∧
     (convert bufWrite ([sampleMode1Sector]).flatten [] false none).dst =
       ([sampleMode1Sector].map payload).flatten ∧
     (convert bufWrite ([sampleMode1Sector]).flatten [] false none).dst.length =
       2048 * [sampleMode1Sector].length) :=
  ⟨by simpa using sampleMode1Sector_good,
   convert_wellformed_sectors [sampleMode1Sector] (by simpa using sampleMode1Sector_good)
     false none⟩

/-! ## C6: the sector byte map -/

/-- C6: the decoded layout matches the spec's byte map: the mode byte is at
offset 15; Mode 1 data occupies offsets 16..2063 with edc at 2064,
reserved at 2068 and ecc at 2076 after it; Mode 2 data occupies offsets
24..2071 after the 8-byte subheader, with edc at 2072 and ecc at 2076;
both content shapes are 2336 bytes and `sizeof(ccd_sector)` is 2352. -/
theorem ccd_sector_layout_matches_bytemap :
    mode_offset = 15 ∧
    mode1_data_offset = 16 ∧
    mode1_data_offset + DATA_SIZE = 2064 ∧
    16 + fieldOffset ccd_mode1_fields "edc" = 2064 ∧
    16 + fieldOffset ccd_mode1_fields "unused" = 2068 ∧
    16 + fieldOffset ccd_mode1_fields "ecc" = 2076 ∧
    structSize ccd_mode1_fields = 2336 ∧
    mode2_data_offset = 24 ∧
    mode2_data_offset + DATA_SIZE = 2072 ∧
    16 + fieldOffset ccd_mode2_fields "edc" = 2072 ∧
    16 + fieldOffset ccd_mode2_fields "ecc" = 2076 ∧
    structSize ccd_mode2_fields = 2336 ∧
    ccd_content_size = 2336 ∧
    structSize ccd_sectheader_fields = 16 ∧
    sizeof_ccd_sector = 2352 ∧
    (∀ buf : List Byte, sector_mode buf = buf.getD 15 0) ∧
    (∀ buf : List Byte, mode1_data buf = (buf.drop 16).take 2048) ∧
    (∀ buf : List Byte, mode2_data buf = (buf.drop 24).take 2048) :=
  ⟨rfl, rfl, rfl, rfl, rfl, rfl, rfl, rfl, rfl, rfl, rfl, rfl, rfl, rfl, rfl,
   fun _ => rfl, fun _ => rfl, fun _ => rfl⟩

/-! ## C7: determinism and progress-independence -/

/-- C7: `convert` is deterministic and the destination bytes and outcome do
not depend on the progress option (nor on the advisory size): any two runs
on the same source bytes, with the progress bar enabled or disabled, give
byte-identical destinations and the same outcome. -/
theorem convert_deterministic_progress_indep (src : List Byte) (d : List Byte)
    (p₁ p₂ : Bool) (sz₁ sz₂ : Option Nat) :
    (convert bufWrite src d p₁ sz₁).dst = (convert bufWrite src d p₂ sz₂).dst ∧
    (convert bufWrite src d p₁ sz₁).outcome = (convert bufWrite src d p₂ sz₂).outcome :=
  convertLoop_progress_indep bufWrite src.length src le_rfl d 0 p₁ p₂ [] []

/-! ## C9: the incomplete-sector guard is dead code -/

/-- `True` exactly on the outcome modelling a raised `IncompleteSectorError`. -/
def raisesIncompleteSector : Except ConvError Unit → Bool
  | .error (.incompleteSector _ _ _) => true
  | _ => false

theorem convertLoop_no_incomplete {σ : Type} (w : σ → List Byte → σ × Nat) :
    ∀ (len : Nat) (src : List Byte), src.length ≤ len →
      ∀ (d : σ) (n : Nat) (t : List Nat) (p : Bool),
        raisesIncompleteSector (convertLoop w p src d n t).outcome = false := by
  intro len
  induction len with
  | zero =>
      intro src hlen d n t p
      have hnil : src = [] := List.length_eq_zero.mp (Nat.le_zero.mp hlen)
      subst hnil
      simp [convertLoop_nil, raisesIncompleteSector]
  | succ len ih =>
      intro src hlen d n t p
      rcases eq_or_ne src [] with hnil | hne
      · subst hnil
        simp [convertLoop_nil, raisesIncompleteSector]
      · by_cases hshort : src.length < sizeof_ccd_sector
        · rw [convertLoop_short w p src d n t hne hshort]
          rfl
        · have h2352 : sizeof_ccd_sector = 2352 := rfl
          have hslen : (src.take sizeof_ccd_sector).length = sizeof_ccd_sector := by
            rw [List.length_take]
            omega
          have hrlen : (src.drop sizeof_ccd_sector).length ≤ len := by
            rw [List.length_drop]
            omega
          have hsplit : src = src.take sizeof_ccd_sector ++ src.drop sizeof_ccd_sector :=
            (List.take_append_drop _ _).symm
          rw [hsplit]
          by_cases h1 : sector_mode (src.take sizeof_ccd_sector) = 1
          · rw [convertLoop_step_mode1 w p _ _ d n t hslen h1]
            exact ih _ hrlen _ _ _ _
          · by_cases h2 : sector_mode (src.take sizeof_ccd_sector) = 2
            · rw [convertLoop_step_mode2 w p _ _ d n t hslen h2]
              exact ih _ hrlen _ _ _ _
            · rw [convertLoop_step_badmode w p _ _ d n t hslen h1 h2]
              rfl

/-- C9: `convert` never raises `IncompleteSectorError`, for any input, any
destination object and any progress setting: `from_buffer_copy` rejects
every chunk shorter than `sizeof(ccd_sector)` first, and on a full chunk
the guard compares `sizeof(src_sect)` with itself, which is never `<`. -/
theorem convert_never_raises_incomplete {σ : Type} (w : σ → List Byte → σ × Nat)
    (src : List Byte) (d : σ) (p : Bool) (sz : Option Nat) :
    raisesIncompleteSector (convert w src d p sz).outcome = false ∧
    decide (sizeof_ccd_sector < sizeof_ccd_sector) = false :=
  ⟨convertLoop_no_incomplete w src.length src le_rfl d 0 [] p, rfl⟩

/-! ## C4: unrecognized sector modes -/

/-- C4: when the first k sectors are well formed and sector k is a complete
sector whose mode byte is none of 1, 2, 0xE2, `convert` fails with
`UnrecognizedSectorModeError` carrying that mode value and index k, and
the destination holds exactly the payloads of sectors 0..k-1, whatever
bytes follow. -/
theorem convert_unrecognized_mode (ss : List (List Byte))
    (h : ∀ s ∈ ss, goodSector s)
    (s : List Byte) (hlen : s.length = sizeof_ccd_sector)
    (h1 : sector_mode s ≠ 1) (h2 : sector_mode s ≠ 2) (hE2 : sector_mode s ≠ 0xE2)
    (rest : List Byte) (p : Bool) (sz : Option Nat) :
    (convert bufWrite (ss.flatten ++ (s ++ rest)) [] p sz).outcome =
      .error (.unrecognizedSectorMode (sector_mode s) ss.length) ∧
    (convert bufWrite (ss.flatten ++ (s ++ rest)) [] p sz).dst =
      (ss.map payload).flatten := by
  have hA := convertLoop_good_prefix bufWrite ss h (s ++ rest) [] 0 []
  rw [bufWrite_foldl] at hA
  simp only [List.nil_append, Nat.zero_add] at hA
  have hrun : convertLoop bufWrite false (ss.flatten ++ (s ++ rest)) [] 0 [] =
      ⟨(ss.map payload).flatten, [],
        .error (.unrecognizedSectorMode (sector_mode s) ss.length)⟩ := by
    rw [hA, convertLoop_step_badmode bufWrite false s rest _ ss.length [] hlen h1 h2]
  have hP := convertLoop_progress_indep bufWrite (ss.flatten ++ (s ++ rest)).length
    (ss.flatten ++ (s ++ rest)) le_rfl [] 0 p false [] []
  exact ⟨by rw [convert_eq_loop, hP.2, hrun], by rw [convert_eq_loop, hP.1, hrun]⟩

/-- A complete sector of 2352 zero bytes; its mode byte is 0, which the
loop recognizes as no mode. -/
def zeroModeSector : List Byte := List.replicate 2352 0

theorem zeroModeSector_length : zeroModeSector.length = sizeof_ccd_sector := by
  rw [zeroModeSector, List.length_replicate, sizeof_ccd_sector_eq]

theorem zeroModeSector_mode : sector_mode zeroModeSector = 0 := by
  rw [sector_mode, mode_offset_eq, zeroModeSector,
    List.getD_eq_getElem?_getD, List.getElem?_replicate, if_pos (by norm_num)]
  rfl

theorem convert_unrecognized_mode_witness :
    (∀ x ∈ ([] : List (List Byte)), goodSector x) ∧
    zeroModeSector.length = sizeof_ccd_sector ∧
    sector_mode zeroModeSector ≠ 1 ∧
    sector_mode zeroModeSector ≠ 2 ∧
    sector_mode zeroModeSector ≠ 0xE2 ∧
    ((convert bufWrite (([] : List (List Byte)).flatten ++ (zeroModeSector ++ []))
        [] false none).outcome =
      .error (.unrecognizedSectorMode (sector_mode zeroModeSector)
        ([] : List (List Byte)).length) ∧
     (convert bufWrite (([] : List (List Byte)).flatten ++ (zeroModeSector ++ []))
        [] false none).dst =
      (([] : List (List Byte)).map payload).flatten) :=
  ⟨by simp,
   zeroModeSector_length,
   by rw [zeroModeSector_mode]; decide,
   by rw [zeroModeSector_mode]; decide,
   by rw [zeroModeSector_mode]; decide,
   convert_unrecognized_mode [] (by simp) zeroModeSector zeroModeSector_length
     (by rw [zeroModeSector_mode]; decide)
     (by rw [zeroModeSector_mode]; decide)
     (by rw [zeroModeSector_mode]; decide)
     [] false none⟩

/-! ## C2: what the loop does on a session-marker sector -/

/-- A complete sector whose mode byte is the multisession marker 0xE2. -/
def sessionMarkerSector : List Byte :=
  List.replicate 15 0 ++ 0xE2 :: List.replicate 2336 0

theorem sessionMarkerSector_length :
    sessionMarkerSector.length = sizeof_ccd_sector := by
  rw [sessionMarkerSector, List.length_append, List.length_replicate,
    List.length_cons, List.length_replicate, sizeof_ccd_sector_eq]

theorem sessionMarkerSector_mode : sector_mode sessionMarkerSector = 0xE2 := by
  rw [sector_mode, mode_offset_eq, sessionMarkerSector,
    List.getD_append_right _ _ _ _ (by rw [List.length_replicate])]
  rw [List.length_replicate, Nat.sub_self, List.getD_cons_zero]

/-- C2 (observed behavior): on an input whose sector 0 has mode byte 0xE2
the loop raises `UnrecognizedSectorModeError` carrying 0xE2 and index 0 —
not `SessionMarkerError`.  The branch `mode == b'\xe2'` compares an int
with a bytes object, which is always false in Python, so the session
branch is dead and 0xE2 falls through to the reject branch. -/
theorem convert_session_marker_diverges :
    (convert bufWrite sessionMarkerSector [] false none).outcome =
      .error (.unrecognizedSectorMode 0xE2 0) ∧
    (convert bufWrite sessionMarkerSector [] false none).outcome ≠
      .error .sessionMarker := by
  have h1 : sector_mode sessionMarkerSector ≠ 1 := by
    rw [sessionMarkerSector_mode]; decide
  have h2 : sector_mode sessionMarkerSector ≠ 2 := by
    rw [sessionMarkerSector_mode]; decide
  have hrun : convertLoop bufWrite false sessionMarkerSector [] 0 [] =
      ⟨[], [], .error (.unrecognizedSectorMode 0xE2 0)⟩ := by
    conv_lhs => rw [(List.append_nil sessionMarkerSector).symm]
    rw [convertLoop_step_badmode bufWrite false sessionMarkerSector [] [] 0 []
      sessionMarkerSector_length h1 h2, sessionMarkerSector_mode]
  constructor
  · rw [convert_eq_loop, hrun]
  · rw [convert_eq_loop, hrun]
    simp

/-! ## C3: what the loop does on a trailing partial record -/

/-- C3 (observed behavior): on a 5-byte source the loop fails with the
ctypes `ValueError` from `from_buffer_copy` ("Buffer size too small"), not
with `IncompleteSectorError`, and writes nothing. -/
theorem convert_incomplete_diverges :
    (convert bufWrite (List.replicate 5 0) [] false none).outcome =
      .error (.bufferTooSmall 5 sizeof_ccd_sector) ∧
    (convert bufWrite (List.replicate 5 0) [] false none).dst = [] ∧
    raisesIncompleteSector
      (convert bufWrite (List.replicate 5 0) [] false none).outcome = false := by
  have hrun : convertLoop bufWrite false (List.replicate 5 0) [] 0 [] =
      ⟨[], [], .error (.bufferTooSmall 5 sizeof_ccd_sector)⟩ := by
    rw [convertLoop_short bufWrite false _ [] 0 [] (by decide) (by decide)]
    rw [List.length_replicate]
  exact ⟨by rw [convert_eq_loop, hrun], by rw [convert_eq_loop, hrun],
    by rw [convert_eq_loop, hrun]; rfl⟩

/-! ## C8: concrete two-sector scenario -/

/-- A Mode 1 sector whose data field is 2048 bytes of 0xAB. -/
def mode1SectorAB : List Byte :=
  List.replicate 15 0 ++ 1 :: (List.replicate 2048 0xAB ++ List.replicate 288 0)

/-- A Mode 2 sector whose data field is 2048 bytes of 0xCD. -/
def mode2SectorCD : List Byte :=
  List.replicate 15 0 ++ 2 :: (List.replicate 8 0 ++
    (List.replicate 2048 0xCD ++ List.replicate 280 0))

theorem mode1SectorAB_length : mode1SectorAB.length = sizeof_ccd_sector := by
  rw [mode1SectorAB, List.length_append, List.length_replicate, List.length_cons,
    List.length_append, List.length_replicate, List.length_replicate,
    sizeof_ccd_sector_eq]

theorem mode2SectorCD_length : mode2SectorCD.length = sizeof_ccd_sector := by
  rw [mode2SectorCD, List.length_append, List.length_replicate, List.length_cons,
    List.length_append, List.length_replicate, List.length_append,
    List.length_replicate, List.length_replicate, sizeof_ccd_sector_eq]

theorem mode1SectorAB_mode : sector_mode mode1SectorAB = 1 := by
  rw [sector_mode, mode_offset_eq, mode1SectorAB,
    List.getD_append_right _ _ _ _ (by rw [List.length_replicate])]
  rw [List.length_replicate, Nat.sub_self, List.getD_cons_zero]

theorem mode2SectorCD_mode : sector_mode mode2SectorCD = 2 := by
  rw [sector_mode, mode_offset_eq, mode2SectorCD,
    List.getD_append_right _ _ _ _ (by rw [List.length_replicate])]
  rw [List.length_replicate, Nat.sub_self, List.getD_cons_zero]

theorem mode1SectorAB_data : mode1_data mode1SectorAB = List.replicate 2048 0xAB := by
  have hform : mode1SectorAB = (List.replicate 15 0 ++ [1]) ++
      (List.replicate 2048 0xAB ++ List.replicate 288 0) := by
    rw [mode1SectorAB, List.append_assoc, List.singleton_append]
  rw [mode1_data, hform,
    List.drop_left' (by rw [List.length_append, List.length_replicate]; rfl),
    List.take_left' (by rw [List.length_replicate, DATA_SIZE])]

theorem mode2SectorCD_data : mode2_data mode2SectorCD = List.replicate 2048 0xCD := by
  have hform : mode2SectorCD = (List.replicate 15 0 ++ 2 :: List.replicate 8 0) ++
      (List.replicate 2048 0xCD ++ List.replicate 280 0) := by
    rw [mode2SectorCD, List.append_assoc, List.cons_append]
  rw [mode2_data, hform,
    List.drop_left' (by rw [List.length_append, List.length_replicate,
      List.length_cons, List.length_replicate]; rfl),
    List.take_left' (by rw [List.length_replicate, DATA_SIZE])]

/-- C8: converting one Mode 1 sector carrying 2048 bytes of 0xAB followed
by one Mode 2 sector carrying 2048 bytes of 0xCD succeeds and writes
exactly those 4096 payload bytes, in order. -/
theorem convert_concrete_two_sectors :
    (convert bufWrite (mode1SectorAB ++ mode2SectorCD) [] false none).outcome =
      .ok () ∧
    (convert bufWrite (mode1SectorAB ++ mode2SectorCD) [] false none).dst =
      List.replicate 2048 0xAB ++ List.replicate 2048 0xCD ∧
    (convert bufWrite (mode1SectorAB ++ mode2SectorCD) [] false none).dst.length =
      4096 := by
  have hrun : convertLoop bufWrite false (mode1SectorAB ++ mode2SectorCD) [] 0 [] =
      ⟨List.replicate 2048 0xAB ++ List.replicate 2048 0xCD, [], .ok ()⟩ := by
    rw [convertLoop_step_mode1 bufWrite false mode1SectorAB mode2SectorCD [] 0 []
      mode1SectorAB_length mode1SectorAB_mode]
    simp only [Bool.false_eq_true, if_false, Nat.zero_add]
    conv_lhs => rw [(List.append_nil mode2SectorCD).symm]
    rw [convertLoop_step_mode2 bufWrite false mode2SectorCD [] _ 1 []
      mode2SectorCD_length mode2SectorCD_mode]
    rw [convertLoop_nil, mode1SectorAB_data, mode2SectorCD_data]
    simp only [bufWrite, List.nil_append, Bool.false_eq_true, if_false]
  refine ⟨by rw [convert_eq_loop, hrun], by rw [convert_eq_loop, hrun], ?_⟩
  rw [convert_eq_loop, hrun]
  show (List.replicate 2048 (0xAB:Nat) ++ List.replicate 2048 0xCD).length = 4096
  rw [List.length_append, List.length_replicate, List.length_replicate]

/-! ## C5: short writes to the destination are not detected -/

/-- A destination whose write method consumes only the first byte of each
buffer and reports 1 byte written — a short write. -/
def shortWrite (s : List Byte) (d : List Byte) : List Byte × Nat :=
  (s ++ d.take 1, (d.take 1).length)

/-- C5 counterexample: with the short-writing destination, the write of a
2048-byte payload reports 1 byte written, yet `convert` succeeds instead
of failing: the loop binds `bytes_written` and never checks it. -/
theorem convert_short_write_not_detected :
    (shortWrite [] (mode1_data sampleMode1Sector)).2 = 1 ∧
    (convert shortWrite sampleMode1Sector [] false none).outcome = .ok () := by
  constructor
  · have hlen2 : (mode1_data sampleMode1Sector).length = DATA_SIZE := by
      have h := payload_length_of_good _ sampleMode1Sector_good
      rwa [payload, if_pos sampleMode1Sector_mode] at h
    rw [shortWrite]
    simp [List.length_take, hlen2, DATA_SIZE]
  · have hrun : convertLoop shortWrite false sampleMode1Sector [] 0 [] =
        ⟨(shortWrite [] (mode1_data sampleMode1Sector)).1, [], .ok ()⟩ := by
      conv_lhs => rw [(List.append_nil sampleMode1Sector).symm]
      rw [convertLoop_step_mode1 shortWrite false sampleMode1Sector [] [] 0 []
        sampleMode1Sector_good.1 sampleMode1Sector_mode, convertLoop_nil]
      simp
    rw [convert_eq_loop, hrun]

theorem convertLoop_write_count_irrel {σ : Type} (w₁ w₂ : σ → List Byte → σ × Nat)
    (h : ∀ s d, (w₁ s d).1 = (w₂ s d).1) :
    ∀ (len : Nat) (src : List Byte), src.length ≤ len →
      ∀ (d : σ) (n : Nat) (t : List Nat) (p : Bool),
        convertLoop w₁ p src d n t = convertLoop w₂ p src d n t := by
  intro len
  induction len with
  | zero =>
      intro src hlen d n t p
      have hnil : src = [] := List.length_eq_zero.mp (Nat.le_zero.mp hlen)
      subst hnil
      rw [convertLoop_nil, convertLoop_nil]
  | succ len ih =>
      intro src hlen d n t p
      rcases eq_or_ne src [] with hnil | hne
      · subst hnil
        rw [convertLoop_nil, convertLoop_nil]
      · by_cases hshort : src.length < sizeof_ccd_sector
        · rw [convertLoop_short w₁ p src d n t hne hshort,
            convertLoop_short w₂ p src d n t hne hshort]
        · have h2352 : sizeof_ccd_sector = 2352 := rfl
          have hslen : (src.take sizeof_ccd_sector).length = sizeof_ccd_sector := by
            rw [List.length_take]
            omega
          have hrlen : (src.drop sizeof_ccd_sector).length ≤ len := by
            rw [List.length_drop]
            omega
          have hsplit : src = src.take sizeof_ccd_sector ++ src.drop sizeof_ccd_sector :=
            (List.take_append_drop _ _).symm
          rw [hsplit]
          by_cases h1 : sector_mode (src.take sizeof_ccd_sector) = 1
          · rw [convertLoop_step_mode1 w₁ p _ _ d n t hslen h1,
              convertLoop_step_mode1 w₂ p _ _ d n t hslen h1,
              h d (mode1_data (src.take sizeof_ccd_sector))]
            exact ih _ hrlen _ _ _ _
          · by_cases h2 : sector_mode (src.take sizeof_ccd_sector) = 2
            · rw [convertLoop_step_mode2 w₁ p _ _ d n t hslen h2,
                convertLoop_step_mode2 w₂ p _ _ d n t hslen h2,
                h d (mode2_data (src.take sizeof_ccd_sector))]
              exact ih _ hrlen _ _ _ _
            · rw [convertLoop_step_badmode w₁ p _ _ d n t hslen h1 h2,
                convertLoop_step_badmode w₂ p _ _ d n t hslen h1 h2]

/-- C5 amended: `convert` never inspects the byte count reported by the
destination's write method: two destinations whose writes perform the same
state change but report different counts (for instance a short count below
2048) yield identical runs — the destination state, trace and outcome all
coincide.  In particular a short write is not surfaced as an error. -/
theorem convert_ignores_write_count {σ : Type} (w₁ w₂ : σ → List Byte → σ × Nat)
    (h : ∀ s d, (w₁ s d).1 = (w₂ s d).1)
    (src : List Byte) (d : σ) (p : Bool) (sz : Option Nat) :
    convert w₁ src d p sz = convert w₂ src d p sz := by
  rw [convert_eq_loop, convert_eq_loop]
  exact convertLoop_write_count_irrel w₁ w₂ h src.length src le_rfl d 0 [] p

theorem convert_ignores_write_count_witness :
    (∀ s d : List Byte, ((fun s d => (s ++ d, 0) : List Byte → List Byte → List Byte × Nat) s d).1 = (bufWrite s d).1) ∧
    convert (fun s d => (s ++ d, 0)) sampleMode1Sector [] false none =
      convert bufWrite sampleMode1Sector [] false none :=
  ⟨fun _ _ => rfl,
   convert_ignores_write_count (fun s d => (s ++ d, 0)) bufWrite (fun _ _ => rfl)
     sampleMode1Sector [] false none⟩

/-! ## C10: dependence only on mode bytes and data windows -/

/-- Number of complete 2352-byte sectors in a stream. -/
def numSectors (l : List Byte) : Nat := l.length / sizeof_ccd_sector

/-- The k-th (0-indexed) complete sector of a stream. -/
def nthSector (l : List Byte) (k : Nat) : List Byte :=
  (l.drop (sizeof_ccd_sector * k)).take sizeof_ccd_sector

/-- Two sectors agree on everything the loop reads from them: the mode
byte, and the mode-selected 2048-byte data window when the mode selects
one. -/
def sectorAgree (a b : List Byte) : Prop :=
  sector_mode a = sector_mode b ∧
  (sector_mode a = 1 → mode1_data a = mode1_data b) ∧
  (sector_mode a = 2 → mode2_data a = mode2_data b)

/-- Two streams have the same number of complete sectors and agree
sector-by-sector on mode bytes and data windows. -/
def inputsAgree (l₁ l₂ : List Byte) : Prop :=
  numSectors l₁ = numSectors l₂ ∧
  ∀ k, k < numSectors l₁ → sectorAgree (nthSector l₁ k) (nthSector l₂ k)

theorem nthSector_zero (l : List Byte) :
    nthSector l 0 = l.take sizeof_ccd_sector := by
  rw [nthSector, Nat.mul_zero, List.drop_zero]

theorem nthSector_drop (l : List Byte) (k : Nat) :
    nthSector (l.drop sizeof_ccd_sector) k = nthSector l (k + 1) := by
  rw [nthSector, nthSector, List.drop_drop, Nat.mul_succ, Nat.add_comm]

theorem convertLoop_agree :
    ∀ (m : Nat) (l₁ l₂ : List Byte), numSectors l₁ = m → numSectors l₂ = m →
      (∀ k, k < m → sectorAgree (nthSector l₁ k) (nthSector l₂ k)) →
      ∀ (d : List Byte) (n : Nat),
        (convertLoop bufWrite false l₁ d n []).dst =
          (convertLoop bufWrite false l₂ d n []).dst ∧
        (l₁.length % sizeof_ccd_sector = l₂.length % sizeof_ccd_sector →
          convertLoop bufWrite false l₁ d n [] =
            convertLoop bufWrite false l₂ d n []) := by
  intro m
  induction m with
  | zero =>
      intro l₁ l₂ h₁ h₂ _ d n
      rw [numSectors, sizeof_ccd_sector_eq] at h₁ h₂
      have hl₁ : l₁.length < 2352 := by omega
      have hl₂ : l₂.length < 2352 := by omega
      have hl₁' : l₁.length < sizeof_ccd_sector := by
        rw [sizeof_ccd_sector_eq]; exact hl₁
      have hl₂' : l₂.length < sizeof_ccd_sector := by
        rw [sizeof_ccd_sector_eq]; exact hl₂
      rcases eq_or_ne l₁ [] with e₁ | e₁ <;> rcases eq_or_ne l₂ [] with e₂ | e₂
      · subst e₁; subst e₂
        exact ⟨rfl, fun _ => rfl⟩
      · subst e₁
        rw [convertLoop_nil, convertLoop_short bufWrite false l₂ d n [] e₂ hl₂']
        refine ⟨rfl, fun hmod => ?_⟩
        exfalso
        rw [sizeof_ccd_sector_eq] at hmod
        simp only [List.length_nil] at hmod
        have hz : l₂.length = 0 := by omega
        exact e₂ (List.length_eq_zero.mp hz)
      · subst e₂
        rw [convertLoop_nil, convertLoop_short bufWrite false l₁ d n [] e₁ hl₁']
        refine ⟨rfl, fun hmod => ?_⟩
        exfalso
        rw [sizeof_ccd_sector_eq] at hmod
        simp only [List.length_nil] at hmod
        have hz : l₁.length = 0 := by omega
        exact e₁ (List.length_eq_zero.mp hz)
      · rw [convertLoop_short bufWrite false l₁ d n [] e₁ hl₁',
          convertLoop_short bufWrite false l₂ d n [] e₂ hl₂']
        refine ⟨rfl, fun hmod => ?_⟩
        rw [sizeof_ccd_sector_eq] at hmod
        have hlen : l₁.length = l₂.length := by omega
        rw [hlen]
  | succ m ih =>
      intro l₁ l₂ h₁ h₂ hag d n
      rw [numSectors, sizeof_ccd_sector_eq] at h₁ h₂
      have hlen₁ : 2352 ≤ l₁.length := by omega
      have hlen₂ : 2352 ≤ l₂.length := by omega
      have hs₁len : (l₁.take sizeof_ccd_sector).length = sizeof_ccd_sector := by
        rw [List.length_take, sizeof_ccd_sector_eq]; omega
      have hs₂len : (l₂.take sizeof_ccd_sector).length = sizeof_ccd_sector := by
        rw [List.length_take, sizeof_ccd_sector_eq]; omega
      have hr₁ : numSectors (l₁.drop sizeof_ccd_sector) = m := by
        rw [numSectors, List.length_drop, sizeof_ccd_sector_eq]; omega
      have hr₂ : numSectors (l₂.drop sizeof_ccd_sector) = m := by
        rw [numSectors, List.length_drop, sizeof_ccd_sector_eq]; omega
      have hshift : ∀ k, k < m →
          sectorAgree (nthSector (l₁.drop sizeof_ccd_sector) k)
            (nthSector (l₂.drop sizeof_ccd_sector) k) := by
        intro k hk
        rw [nthSector_drop, nthSector_drop]
        exact hag (k + 1) (by omega)
      have hmodtrans : l₁.length % sizeof_ccd_sector = l₂.length % sizeof_ccd_sector →
          (l₁.drop sizeof_ccd_sector).length % sizeof_ccd_sector =
            (l₂.drop sizeof_ccd_sector).length % sizeof_ccd_sector := by
        intro hmod
        rw [List.length_drop, List.length_drop, sizeof_ccd_sector_eq]
        rw [sizeof_ccd_sector_eq] at hmod
        omega
      have hag0 := hag 0 (by omega)
      rw [nthSector_zero, nthSector_zero] at hag0
      obtain ⟨hmode, hm1, hm2⟩ := hag0
      by_cases hb1 : sector_mode (l₁.take sizeof_ccd_sector) = 1
      · have hb1' : sector_mode (l₂.take sizeof_ccd_sector) = 1 := by
          rw [← hmode]; exact hb1
        have hdata := hm1 hb1
        have e₁ : convertLoop bufWrite false l₁ d n [] =
            convertLoop bufWrite false (l₁.drop sizeof_ccd_sector)
              (bufWrite d (mode1_data (l₁.take sizeof_ccd_sector))).1 (n + 1) [] := by
          conv_lhs => rw [(List.take_append_drop sizeof_ccd_sector l₁).symm]
          rw [convertLoop_step_mode1 bufWrite false _ _ d n [] hs₁len hb1]
          simp only [Bool.false_eq_true, if_false]
        have e₂ : convertLoop bufWrite false l₂ d n [] =
            convertLoop bufWrite false (l₂.drop sizeof_ccd_sector)
              (bufWrite d (mode1_data (l₂.take sizeof_ccd_sector))).1 (n + 1) [] := by
          conv_lhs => rw [(List.take_append_drop sizeof_ccd_sector l₂).symm]
          rw [convertLoop_step_mode1 bufWrite false _ _ d n [] hs₂len hb1']
          simp only [Bool.false_eq_true, if_false]
        rw [e₁, e₂, hdata]
        exact ⟨(ih _ _ hr₁ hr₂ hshift _ (n + 1)).1,
          fun hmod => (ih _ _ hr₁ hr₂ hshift _ (n + 1)).2 (hmodtrans hmod)⟩
      · by_cases hb2 : sector_mode (l₁.take sizeof_ccd_sector) = 2
        · have hb2' : sector_mode (l₂.take sizeof_ccd_sector) = 2 := by
            rw [← hmode]; exact hb2
          have hdata := hm2 hb2
          have e₁ : convertLoop bufWrite false l₁ d n [] =
              convertLoop bufWrite false (l₁.drop sizeof_ccd_sector)
                (bufWrite d (mode2_data (l₁.take sizeof_ccd_sector))).1 (n + 1) [] := by
            conv_lhs => rw [(List.take_append_drop sizeof_ccd_sector l₁).symm]
            rw [convertLoop_step_mode2 bufWrite false _ _ d n [] hs₁len hb2]
            simp only [Bool.false_eq_true, if_false]
          have e₂ : convertLoop bufWrite false l₂ d n [] =
              convertLoop bufWrite false (l₂.drop sizeof_ccd_sector)
                (bufWrite d (mode2_data (l₂.take sizeof_ccd_sector))).1 (n + 1) [] := by
            conv_lhs => rw [(List.take_append_drop sizeof_ccd_sector l₂).symm]
            rw [convertLoop_step_mode2 bufWrite false _ _ d n [] hs₂len hb2']
            simp only [Bool.false_eq_true, if_false]
          rw [e₁, e₂, hdata]
          exact ⟨(ih _ _ hr₁ hr₂ hshift _ (n + 1)).1,
            fun hmod => (ih _ _ hr₁ hr₂ hshift _ (n + 1)).2 (hmodtrans hmod)⟩
        · have hb1' : sector_mode (l₂.take sizeof_ccd_sector) ≠ 1 := by
            rw [← hmode]; exact hb1
          have hb2' : sector_mode (l₂.take sizeof_ccd_sector) ≠ 2 := by
            rw [← hmode]; exact hb2
          have e₁ : convertLoop bufWrite false l₁ d n [] =
              ⟨d, [], .error (.unrecognizedSectorMode
                (sector_mode (l₁.take sizeof_ccd_sector)) n)⟩ := by
            conv_lhs => rw [(List.take_append_drop sizeof_ccd_sector l₁).symm]
            rw [convertLoop_step_badmode bufWrite false _ _ d n [] hs₁len hb1 hb2]
          have e₂ : convertLoop bufWrite false l₂ d n [] =
              ⟨d, [], .error (.unrecognizedSectorMode
                (sector_mode (l₂.take sizeof_ccd_sector)) n)⟩ := by
            conv_lhs => rw [(List.take_append_drop sizeof_ccd_sector l₂).symm]
            rw [convertLoop_step_badmode bufWrite false _ _ d n [] hs₂len hb1' hb2']
          rw [e₁, e₂, hmode]
          exact ⟨rfl, fun _ => rfl⟩

/-- C10 amended: for two inputs with the same number of complete sectors
that agree sector-by-sector on the mode byte and on the mode-selected data
window, `convert` writes identical destination bytes — the sync, address,
subheader, edc, reserved and ecc regions never influence the output — and,
provided the trailing incomplete chunks also have equal length, the
outcome is the same as well. -/
theorem convert_mode_window_agreement (l₁ l₂ : List Byte) (h : inputsAgree l₁ l₂)
    (d : List Byte) (p₁ p₂ : Bool) (sz₁ sz₂ : Option Nat) :
    (convert bufWrite l₁ d p₁ sz₁).dst = (convert bufWrite l₂ d p₂ sz₂).dst ∧
    (l₁.length % sizeof_ccd_sector = l₂.length % sizeof_ccd_sector →
      (convert bufWrite l₁ d p₁ sz₁).outcome =
        (convert bufWrite l₂ d p₂ sz₂).outcome) := by
  obtain ⟨hnum, hag⟩ := h
  have hcore := convertLoop_agree (numSectors l₁) l₁ l₂ rfl hnum.symm hag d 0
  have hP₁ := convertLoop_progress_indep bufWrite l₁.length l₁ le_rfl d 0 p₁ false [] []
  have hP₂ := convertLoop_progress_indep bufWrite l₂.length l₂ le_rfl d 0 p₂ false [] []
  constructor
  · rw [convert_eq_loop, convert_eq_loop, hP₁.1, hP₂.1]
    exact hcore.1
  · intro hmod
    rw [convert_eq_loop, convert_eq_loop, hP₁.2, hP₂.2, hcore.2 hmod]

theorem numSectors_sample : numSectors sampleMode1Sector = 1 := by
  rw [numSectors, sampleMode1Sector_good.1, sizeof_ccd_sector_eq]

theorem numSectors_sample_tail : numSectors (sampleMode1Sector ++ [0]) = 1 := by
  rw [numSectors, List.length_append, sampleMode1Sector_good.1,
    List.length_singleton, sizeof_ccd_sector_eq]

/-- C10 counterexample: append one stray byte after a well-formed sector.
Both inputs have one complete sector and agree on its mode byte and data
window, yet the outcomes differ: the padded input fails on the trailing
chunk while the exact input succeeds. -/
theorem convert_mode_window_agreement_counterexample :
    inputsAgree (sampleMode1Sector ++ [0]) sampleMode1Sector ∧
    (convert bufWrite (sampleMode1Sector ++ [0]) [] false none).outcome ≠
      (convert bufWrite sampleMode1Sector [] false none).outcome := by
  have htake : (sampleMode1Sector ++ [0]).take sizeof_ccd_sector = sampleMode1Sector :=
    List.take_left' sampleMode1Sector_good.1
  constructor
  · constructor
    · rw [numSectors_sample_tail, numSectors_sample]
    · intro k hk
      rw [numSectors_sample_tail] at hk
      have hk0 : k = 0 := by omega
      subst hk0
      rw [nthSector_zero, nthSector_zero, htake,
        List.take_of_length_le (le_of_eq sampleMode1Sector_good.1)]
      exact ⟨rfl, fun _ => rfl, fun _ => rfl⟩
  · have e₁ : convertLoop bufWrite false (sampleMode1Sector ++ [0]) [] 0 [] =
        ⟨(bufWrite [] (mode1_data sampleMode1Sector)).1, [],
          .error (.bufferTooSmall 1 sizeof_ccd_sector)⟩ := by
      rw [convertLoop_step_mode1 bufWrite false sampleMode1Sector [0] [] 0 []
        sampleMode1Sector_good.1 sampleMode1Sector_mode]
      simp only [Bool.false_eq_true, if_false, Nat.zero_add]
      rw [convertLoop_short bufWrite false [0] _ 1 [] (by decide) (by decide),
        List.length_singleton]
    have e₂ : convertLoop bufWrite false sampleMode1Sector [] 0 [] =
        ⟨(bufWrite [] (mode1_data sampleMode1Sector)).1, [], .ok ()⟩ := by
      conv_lhs => rw [(List.append_nil sampleMode1Sector).symm]
      rw [convertLoop_step_mode1 bufWrite false sampleMode1Sector [] [] 0 []
        sampleMode1Sector_good.1 sampleMode1Sector_mode, convertLoop_nil]
      simp only [Bool.false_eq_true, if_false]
    rw [convert_eq_loop, convert_eq_loop, e₁, e₂]
    simp

/-- A Mode 1 sector with the same data field as `sampleMode1Sector` but
different sync (7s), and different bytes in the edc/reserved/ecc trailer
(9s). -/
def sampleMode1SectorAlt : List Byte :=
  List.replicate 15 7 ++ 1 :: (List.replicate 2048 0 ++ List.replicate 288 9)

theorem sampleAlt_length : sampleMode1SectorAlt.length = sizeof_ccd_sector := by
  rw [sampleMode1SectorAlt, List.length_append, List.length_replicate,
    List.length_cons, List.length_append, List.length_replicate,
    List.length_replicate, sizeof_ccd_sector_eq]

theorem sampleAlt_mode : sector_mode sampleMode1SectorAlt = 1 := by
  rw [sector_mode, mode_offset_eq, sampleMode1SectorAlt,
    List.getD_append_right _ _ _ _ (by rw [List.length_replicate])]
  rw [List.length_replicate, Nat.sub_self, List.getD_cons_zero]

theorem sampleMode1Sector_data : mode1_data sampleMode1Sector = List.replicate 2048 0 := by
  have hform : sampleMode1Sector = (List.replicate 15 0 ++ [1]) ++
      (List.replicate 2048 0 ++ List.replicate 288 0) := by
    rw [sampleMode1Sector, show (2336 : Nat) = 2048 + 288 from rfl,
      List.replicate_add, List.append_assoc, List.singleton_append]
  rw [mode1_data, hform,
    List.drop_left' (by rw [List.length_append, List.length_replicate]; rfl),
    List.take_left' (by rw [List.length_replicate, DATA_SIZE])]

theorem sampleAlt_data : mode1_data sampleMode1SectorAlt = List.replicate 2048 0 := by
  have hform : sampleMode1SectorAlt = (List.replicate 15 7 ++ [1]) ++
      (List.replicate 2048 0 ++ List.replicate 288 9) := by
    rw [sampleMode1SectorAlt, List.append_assoc, List.singleton_append]
  rw [mode1_data, hform,
    List.drop_left' (by rw [List.length_append, List.length_replicate]; rfl),
    List.take_left' (by rw [List.length_replicate, DATA_SIZE])]

theorem sample_alt_inputsAgree : inputsAgree sampleMode1Sector sampleMode1SectorAlt := by
  have hnumA : numSectors sampleMode1SectorAlt = 1 := by
    rw [numSectors, sampleAlt_length, sizeof_ccd_sector_eq]
  constructor
  · rw [numSectors_sample, hnumA]
  · intro k hk
    rw [numSectors_sample] at hk
    have hk0 : k = 0 := by omega
    subst hk0
    rw [nthSector_zero, nthSector_zero,
      List.take_of_length_le (le_of_eq sampleMode1Sector_good.1),
      List.take_of_length_le (le_of_eq sampleAlt_length)]
    refine ⟨?_, fun _ => ?_, fun hm2 => ?_⟩
    · rw [sampleMode1Sector_mode, sampleAlt_mode]
    · rw [sampleMode1Sector_data, sampleAlt_data]
    · rw [sampleMode1Sector_mode] at hm2
      exact absurd hm2 (by decide)

theorem convert_mode_window_agreement_witness :
    inputsAgree sampleMode1Sector sampleMode1SectorAlt ∧
    ((convert bufWrite sampleMode1Sector [] false none).dst =
       (convert bufWrite sampleMode1SectorAlt [] false none).dst ∧
     (sampleMode1Sector.length % sizeof_ccd_sector =
        sampleMode1SectorAlt.length % sizeof_ccd_sector →
      (convert bufWrite sampleMode1Sector [] false none).outcome =
        (convert bufWrite sampleMode1SectorAlt [] false none).outcome)) :=
  ⟨sample_alt_inputsAgree,
   convert_mode_window_agreement sampleMode1Sector sampleMode1SectorAlt
     sample_alt_inputsAgree [] false false none none⟩
